import Mathlib

/-!
Shallow embedding of the tickets service (Fernandosoriano/tickets_service).

The repository is a Flask application (src/app.py) over a SQLAlchemy data
model (src/models.py).  The domain state is embedded as a `DB` record holding
the persisted `Event` and `Ticket` rows together with the auto-increment
counters of the two primary keys.  Each HTTP handler of src/app.py becomes a
pure function `DB → args → Except Err α × DB`: the second component is the
database after the request.  Every failing branch of a handler executes a
`return jsonify(error), 400` before `db.session.commit()` is reached; the
request-scoped SQLAlchemy session is rolled back on teardown, so uncommitted
attribute writes are discarded and the persisted state is the pre-call state.
The embedding reflects this by mutating a session-local copy of the row and
installing it in the `DB` only at the point of `db.session.commit()`.

Timestamps: `datetime` values are embedded as `DateTime`, a calendar date
(`date : Int`, a day number, mirroring Python `.date()`) plus a time of day
(`tod : Nat`).  Dates parsed by `datetime.strptime(s, "%d/%m/%Y")` carry
`tod = 0` (midnight), while `datetime.now()` carries an arbitrary `tod`.
Python comparisons on `.date()` compare only the `date` field; comparisons on
full datetimes are lexicographic (`dtLt`).

Request bodies: a date field of the JSON body is either the empty string
(falsy for the `all([...])` gate), a non-empty string that fails
`strptime` (`bad`), or a non-empty string parsing to a date (`good d`).
`total_tickets` is `Option Int`: `none` is JSON null, and `0` is falsy.
-/

namespace TicketsService

/-- Embedded `datetime`: a day number plus a time of day.  `date` mirrors
Python `.date()`; values produced by parsing `dd/mm/yyyy` have `tod = 0`. -/
structure DateTime where
  date : Int
  tod : Nat
deriving DecidableEq, Repr

/-- Lexicographic `<` on datetimes, mirroring Python `datetime` comparison. -/
def dtLt (a b : DateTime) : Bool :=
  a.date < b.date || (a.date == b.date && a.tod < b.tod)

/-- Row of the `events` table (src/models.py, class Event). -/
structure Event where
  id : Nat
  name : String
  start_date : DateTime
  end_date : DateTime
  total_tickets : Int
  tickets_sold : Int
deriving DecidableEq, Repr

/-- Row of the `tickets` table (src/models.py, class Ticket). -/
structure Ticket where
  id : Nat
  event_id : Nat
  redeemed : Bool
  sold_at : DateTime
deriving DecidableEq, Repr

/-- The persisted database: the two tables plus the auto-increment counters
for their integer primary keys. -/
structure DB where
  events : List Event
  tickets : List Ticket
  next_event_id : Nat
  next_ticket_id : Nat
deriving DecidableEq, Repr

/-- The empty database (fresh migration). -/
def DB.empty : DB := ⟨[], [], 0, 0⟩

/-- `Event.query.get(event_id)` / `get_or_404`. -/
def findEvent (db : DB) (event_id : Nat) : Option Event :=
  db.events.find? (fun e => e.id == event_id)

/-- `Ticket.query.get(ticket_id)` / `get_or_404`. -/
def findTicket (db : DB) (ticket_id : Nat) : Option Ticket :=
  db.tickets.find? (fun t => t.id == ticket_id)

/-- The distinct failure responses of the handlers in src/app.py, one
constructor per distinct error message / condition. -/
inductive Err where
  | notFound
  | missingFields
  | parseError
  | startInPast
  | endBeforeStart
  | totalOutOfRange
  | reduceBelowSold
  | cannotDelete
  | capacityExceeded
  | alreadyRedeemed
  | outOfWindow
deriving DecidableEq, Repr

/-- A date field of a request body: empty string (falsy), a non-empty string
rejected by `strptime`, or a non-empty string parsing to day number `d`. -/
inductive DateStr where
  | empty
  | bad
  | good (d : Int)
deriving DecidableEq, Repr

/-- The JSON body consumed by create_event and update_event. -/
structure EventReq where
  name : String
  start_date : DateStr
  end_date : DateStr
  total_tickets : Option Int
deriving DecidableEq, Repr

/-- Python truthiness test used by `all([name, ...])`: the empty string is
falsy. -/
def falsyName (s : String) : Bool := s == ""

/-- Python truthiness of a date string: only the empty string is falsy. -/
def falsyDate (d : DateStr) : Bool := d == DateStr.empty

/-- Python truthiness of `total_tickets`: JSON null (`None`) and `0` are
falsy. -/
def falsyTT : Option Int → Bool
  | none => true
  | some k => k == 0

/-- `datetime.strptime(s, "%d/%m/%Y")`: fails on the empty string and on
malformed input, otherwise yields midnight of day `d`. -/
def parseDate : DateStr → Option DateTime
  | DateStr.good d => some ⟨d, 0⟩
  | _ => none

/-- src/app.py, create_event (lines 19-68).  Reads the four fields, rejects
any falsy field, parses both dates (start first), rejects a start date in the
past, an end date before the start date, and a ticket total outside [1, 300];
otherwise persists a new Event with `tickets_sold = 0` (the column default of
src/models.py line 14) and returns its assigned id. -/
def create_event (db : DB) (req : EventReq) (now : DateTime) :
    Except Err Nat × DB :=
  if falsyName req.name || falsyDate req.start_date || falsyDate req.end_date
      || falsyTT req.total_tickets then
    (Except.error Err.missingFields, db)
  else
    match parseDate req.start_date with
    | none => (Except.error Err.parseError, db)
    | some start_date =>
      match parseDate req.end_date with
      | none => (Except.error Err.parseError, db)
      | some end_date =>
        if start_date.date < now.date then
          (Except.error Err.startInPast, db)
        else if end_date.date < start_date.date then
          (Except.error Err.endBeforeStart, db)
        else
          match req.total_tickets with
          | none => (Except.error Err.missingFields, db)
          | some total_tickets =>
            if ¬(1 ≤ total_tickets ∧ total_tickets ≤ 300) then
              (Except.error Err.totalOutOfRange, db)
            else
              let event : Event :=
                ⟨db.next_event_id, req.name, start_date, end_date,
                  total_tickets, 0⟩
              (Except.ok event.id,
                { db with
                    events := db.events ++ [event],
                    next_event_id := db.next_event_id + 1 })

/-- src/app.py, update_event lines 103-104: `if name: event.name = name`. -/
def applyName (e : Event) (req : EventReq) : Event :=
  if ¬falsyName req.name then { e with name := req.name } else e

/-- src/app.py, update_event lines 106-113: `if start_date_str:` parse it
(`return` with a 400 on failure), reject a date before today, and overwrite
`event.start_date`. -/
def applyStart (e : Event) (req : EventReq) (now : DateTime) :
    Except Err Event :=
  if ¬falsyDate req.start_date then
    match parseDate req.start_date with
    | none => Except.error Err.parseError
    | some start_date =>
      if start_date.date < now.date then Except.error Err.startInPast
      else Except.ok { e with start_date := start_date }
  else Except.ok e

/-- src/app.py, update_event lines 115-123: `if end_date_str:` parse it,
reject a date before `event.start_date` — the session-local value, already
overwritten by the start_date block — and overwrite `event.end_date`. -/
def applyEnd (e : Event) (req : EventReq) : Except Err Event :=
  if ¬falsyDate req.end_date then
    match parseDate req.end_date with
    | none => Except.error Err.parseError
    | some end_date =>
      if end_date.date < e.start_date.date then Except.error Err.endBeforeStart
      else Except.ok { e with end_date := end_date }
  else Except.ok e

/-- src/app.py, update_event lines 125-130: `if total_tickets is not None:`
reject a total below `tickets_sold`, then a total outside [1, 300], and
overwrite `event.total_tickets`. -/
def applyTotal (e : Event) (req : EventReq) : Except Err Event :=
  match req.total_tickets with
  | none => Except.ok e
  | some total_tickets =>
    if total_tickets < e.tickets_sold then
      Except.error Err.reduceBelowSold
    else if ¬(1 ≤ total_tickets ∧ total_tickets ≤ 300) then
      Except.error Err.totalOutOfRange
    else Except.ok { e with total_tickets := total_tickets }

/-- src/app.py, update_event lines 100-130: the required-field gate followed
by the four field blocks, applied in source order (name, start_date, end_date,
total_tickets) to the session-local copy of the row.  Each failing branch is
a `return` before commit, so it discards the local mutations; the end_date
check at line 120 reads `event.start_date` as already overwritten by the
start_date block at line 113. -/
def updateEventFields (e : Event) (req : EventReq) (now : DateTime) :
    Except Err Event :=
  if falsyName req.name || falsyDate req.start_date || falsyDate req.end_date
      || falsyTT req.total_tickets then
    Except.error Err.missingFields
  else
    match applyStart (applyName e req) req now with
    | Except.error err => Except.error err
    | Except.ok e2 =>
      match applyEnd e2 req with
      | Except.error err => Except.error err
      | Except.ok e3 => applyTotal e3 req

/-- src/app.py, update_event (lines 72-134).  404 when the id is unknown;
otherwise runs the field blocks on the session-local row and commits the
result, while any failing branch returns with the persisted state intact
(the rolled-back session discards the local writes). -/
def update_event (db : DB) (event_id : Nat) (req : EventReq)
    (now : DateTime) : Except Err Unit × DB :=
  match findEvent db event_id with
  | none => (Except.error Err.notFound, db)
  | some e =>
    match updateEventFields e req now with
    | Except.error err => (Except.error err, db)
    | Except.ok e2 =>
      (Except.ok (),
        { db with
            events := db.events.map (fun x => if x.id == event_id then e2 else x) })

/-- src/app.py, delete_event (lines 138-158).  Refuses when tickets are sold
and the event has not ended (`event.end_date > current_time`, a full datetime
comparison); otherwise deletes the Event, and the `cascade="all,
delete-orphan"` relationship of src/models.py line 16 deletes its Tickets. -/
def delete_event (db : DB) (event_id : Nat) (now : DateTime) :
    Except Err Unit × DB :=
  match findEvent db event_id with
  | none => (Except.error Err.notFound, db)
  | some event =>
    if event.tickets_sold > 0 ∧ dtLt now event.end_date then
      (Except.error Err.cannotDelete, db)
    else
      (Except.ok (),
        { db with
            events := db.events.filter (fun x => ¬(x.id == event_id)),
            tickets := db.tickets.filter (fun t => ¬(t.event_id == event_id)) })

/-- src/app.py, sell_ticket (lines 162-185).  Refuses when
`tickets_sold >= total_tickets`; otherwise inserts a Ticket for the event
(redeemed = false and sold_at = now by the column defaults of src/models.py),
increments `tickets_sold`, and answers with `ticket.event_id` (the handler
returns the event id, not the ticket primary key). -/
def sell_ticket (db : DB) (event_id : Nat) (now : DateTime) :
    Except Err Nat × DB :=
  match findEvent db event_id with
  | none => (Except.error Err.notFound, db)
  | some event =>
    if event.tickets_sold ≥ event.total_tickets then
      (Except.error Err.capacityExceeded, db)
    else
      let ticket : Ticket := ⟨db.next_ticket_id, event_id, false, now⟩
      let event2 := { event with tickets_sold := event.tickets_sold + 1 }
      (Except.ok ticket.event_id,
        { db with
            events := db.events.map (fun x => if x.id == event_id then event2 else x),
            tickets := db.tickets ++ [ticket],
            next_ticket_id := db.next_ticket_id + 1 })

/-- src/app.py, redeem_ticket (lines 189-210).  404 when the ticket id is
unknown; `ticket.event` is always present because `event_id` is a non-null
foreign key, so the inner `none` branch is unreachable on well-formed states.
Refuses an already redeemed ticket, then any current date outside
[event.start_date, event.end_date] (date-only, inclusive); otherwise marks
the ticket redeemed. -/
def redeem_ticket (db : DB) (ticket_id : Nat) (now : DateTime) :
    Except Err Unit × DB :=
  match findTicket db ticket_id with
  | none => (Except.error Err.notFound, db)
  | some ticket =>
    match findEvent db ticket.event_id with
    | none => (Except.error Err.notFound, db)
    | some event =>
      if ticket.redeemed then (Except.error Err.alreadyRedeemed, db)
      else if ¬(event.start_date.date ≤ now.date ∧ now.date ≤ event.end_date.date) then
        (Except.error Err.outOfWindow, db)
      else
        (Except.ok (),
          { db with
              tickets := db.tickets.map
                (fun t => if t.id == ticket_id then { t with redeemed := true } else t) })

/-- One public-interface request: the five mutating handlers, each with an
arbitrary body and an arbitrary wall clock. -/
inductive Step : DB → DB → Prop where
  | create (db : DB) (req : EventReq) (now : DateTime) :
      Step db (create_event db req now).2
  | update (db : DB) (event_id : Nat) (req : EventReq) (now : DateTime) :
      Step db (update_event db event_id req now).2
  | delete (db : DB) (event_id : Nat) (now : DateTime) :
      Step db (delete_event db event_id now).2
  | sell (db : DB) (event_id : Nat) (now : DateTime) :
      Step db (sell_ticket db event_id now).2
  | redeem (db : DB) (ticket_id : Nat) (now : DateTime) :
      Step db (redeem_ticket db ticket_id now).2

/-- States reachable from the empty database by handler requests. -/
inductive Reachable : DB → Prop where
  | init : Reachable DB.empty
  | step {db db2 : DB} : Reachable db → Step db db2 → Reachable db2

/-- Capacity invariant of the spec: no event oversold. -/
def InvSold (db : DB) : Prop :=
  ∀ e ∈ db.events, e.tickets_sold ≤ e.total_tickets

/-- Bookkeeping invariant of the primary keys of `tickets`: every stored id
is below the auto-increment counter and ids are pairwise distinct. -/
def TicketIdsOk (db : DB) : Prop :=
  (∀ t ∈ db.tickets, t.id < db.next_ticket_id) ∧
    (db.tickets.map Ticket.id).Nodup

/-- Iterated selling: the state after `n` sell_ticket requests for
`event_id`, all at wall clock `now`. -/
def sellN (db : DB) (event_id : Nat) (now : DateTime) : Nat → DB
  | 0 => db
  | n + 1 => (sell_ticket (sellN db event_id now n) event_id now).2

/-- Concrete fixture: one event (id 0, window days [100, 101], capacity 2,
none sold), no tickets. -/
def dbOneEvent : DB := ⟨[⟨0, "Concert", ⟨100, 0⟩, ⟨101, 0⟩, 2, 0⟩], [], 1, 0⟩

/-- Concrete fixture: as `dbOneEvent` but the ticket primary-key counter
already stands at 7. -/
def dbNextTicket7 : DB :=
  ⟨[⟨0, "Concert", ⟨100, 0⟩, ⟨101, 0⟩, 2, 0⟩], [], 1, 7⟩

/-- Concrete fixture: one event with one sold, not yet redeemed ticket. -/
def dbUnredeemed : DB :=
  ⟨[⟨0, "Concert", ⟨100, 0⟩, ⟨101, 0⟩, 2, 1⟩], [⟨0, 0, false, ⟨100, 9⟩⟩], 1, 1⟩

/-- Concrete fixture: one event with one sold, already redeemed ticket. -/
def dbRedeemed : DB :=
  ⟨[⟨0, "Concert", ⟨100, 0⟩, ⟨101, 0⟩, 2, 1⟩], [⟨0, 0, true, ⟨100, 9⟩⟩], 1, 1⟩

end TicketsService
namespace TicketsService

theorem findEvent_mem {db : DB} {eid : Nat} {e : Event}
    (h : findEvent db eid = some e) : e ∈ db.events :=
  List.mem_of_find?_eq_some h

theorem findEvent_id {db : DB} {eid : Nat} {e : Event}
    (h : findEvent db eid = some e) : e.id = eid := by
  have h2 := List.find?_some h
  simpa using h2

theorem findTicket_mem {db : DB} {tid : Nat} {t : Ticket}
    (h : findTicket db tid = some t) : t ∈ db.tickets :=
  List.mem_of_find?_eq_some h

theorem findTicket_id {db : DB} {tid : Nat} {t : Ticket}
    (h : findTicket db tid = some t) : t.id = tid := by
  have h2 := List.find?_some h
  simpa using h2

theorem find?_map_replace {l : List Event} {eid : Nat} {e e2 : Event}
    (h : l.find? (fun x => x.id == eid) = some e) (h2 : e2.id = eid) :
    (l.map (fun x => if x.id == eid then e2 else x)).find?
        (fun x => x.id == eid) = some e2 := by
  induction l with
  | nil => simp [List.find?] at h
  | cons a l ih =>
    by_cases ha : (a.id == eid) = true
    · simp only [List.map_cons, if_pos ha]
      simp [List.find?_cons, h2]
    · have hb : (a.id == eid) = false := by
        cases hab : (a.id == eid) with
        | true => exact absurd hab ha
        | false => rfl
      simp only [List.map_cons, if_neg ha]
      simp only [List.find?_cons, hb] at h ⊢
      exact ih h

end TicketsService
namespace TicketsService

theorem create_event_err {db : DB} {req : EventReq} {now : DateTime}
    {err : Err} {db2 : DB}
    (h : create_event db req now = (Except.error err, db2)) : db2 = db := by
  unfold create_event at h
  repeat' split at h
  all_goals simp_all

theorem create_event_ok {db : DB} {req : EventReq} {now : DateTime}
    {eid : Nat} {db2 : DB}
    (h : create_event db req now = (Except.ok eid, db2)) :
    ∃ sd ed tt, parseDate req.start_date = some sd ∧
      parseDate req.end_date = some ed ∧
      req.total_tickets = some tt ∧
      ¬ sd.date < now.date ∧ ¬ ed.date < sd.date ∧ 1 ≤ tt ∧ tt ≤ 300 ∧
      eid = db.next_event_id ∧
      db2 = { db with
                events := db.events ++
                  [⟨db.next_event_id, req.name, sd, ed, tt, 0⟩],
                next_event_id := db.next_event_id + 1 } := by
  unfold create_event at h
  repeat' split at h
  all_goals simp_all
  all_goals obtain ⟨h1, h2⟩ := h
  all_goals subst h1
  all_goals exact h2.symm

end TicketsService
namespace TicketsService

theorem applyName_fields (e : Event) (req : EventReq) :
    (applyName e req).id = e.id ∧ (applyName e req).start_date = e.start_date ∧
      (applyName e req).end_date = e.end_date ∧
      (applyName e req).total_tickets = e.total_tickets ∧
      (applyName e req).tickets_sold = e.tickets_sold := by
  unfold applyName
  split <;> simp

theorem applyStart_ok {e : Event} {req : EventReq} {now : DateTime}
    {e2 : Event} (h : applyStart e req now = Except.ok e2) :
    e2.id = e.id ∧ e2.name = e.name ∧ e2.end_date = e.end_date ∧
      e2.total_tickets = e.total_tickets ∧ e2.tickets_sold = e.tickets_sold := by
  unfold applyStart at h
  repeat' split at h
  all_goals simp_all
  all_goals subst h
  all_goals simp

theorem applyEnd_ok {e : Event} {req : EventReq} {e2 : Event}
    (h : applyEnd e req = Except.ok e2) :
    e2.id = e.id ∧ e2.name = e.name ∧ e2.start_date = e.start_date ∧
      e2.total_tickets = e.total_tickets ∧ e2.tickets_sold = e.tickets_sold := by
  unfold applyEnd at h
  repeat' split at h
  all_goals simp_all
  all_goals subst h
  all_goals simp

theorem applyTotal_ok {e : Event} {req : EventReq} {e2 : Event}
    (h : applyTotal e req = Except.ok e2) :
    e2.id = e.id ∧ e2.name = e.name ∧ e2.start_date = e.start_date ∧
      e2.end_date = e.end_date ∧ e2.tickets_sold = e.tickets_sold ∧
      (e2.total_tickets = e.total_tickets ∨
        (e.tickets_sold ≤ e2.total_tickets ∧ 1 ≤ e2.total_tickets ∧
          e2.total_tickets ≤ 300)) := by
  unfold applyTotal at h
  repeat' split at h
  all_goals simp_all
  all_goals subst h
  all_goals simp
  all_goals omega

theorem updateEventFields_ok {e : Event} {req : EventReq} {now : DateTime}
    {e2 : Event} (h : updateEventFields e req now = Except.ok e2) :
    e2.id = e.id ∧ e2.tickets_sold = e.tickets_sold ∧
      (e2.total_tickets = e.total_tickets ∨
        (e2.tickets_sold ≤ e2.total_tickets ∧ 1 ≤ e2.total_tickets ∧
          e2.total_tickets ≤ 300)) := by
  unfold updateEventFields at h
  split at h
  · simp at h
  · cases hs : applyStart (applyName e req) req now with
    | error err => rw [hs] at h; simp at h
    | ok ea =>
      rw [hs] at h
      dsimp only at h
      cases he : applyEnd ea req with
      | error err => rw [he] at h; simp at h
      | ok eb =>
        rw [he] at h
        dsimp only at h
        obtain ⟨hn1, hn2, hn3, hn4, hn5⟩ := applyName_fields e req
        obtain ⟨hs1, hs2, hs3, hs4, hs5⟩ := applyStart_ok hs
        obtain ⟨he1, he2, he3, he4, he5⟩ := applyEnd_ok he
        obtain ⟨ht1, ht2, ht3, ht4, ht5, ht6⟩ := applyTotal_ok h
        omega

end TicketsService
namespace TicketsService

theorem update_event_err {db : DB} {eid : Nat} {req : EventReq}
    {now : DateTime} {err : Err} {db2 : DB}
    (h : update_event db eid req now = (Except.error err, db2)) : db2 = db := by
  unfold update_event at h
  repeat' split at h
  all_goals simp_all

theorem update_event_ok {db : DB} {eid : Nat} {req : EventReq}
    {now : DateTime} {db2 : DB}
    (h : update_event db eid req now = (Except.ok (), db2)) :
    ∃ e e2, findEvent db eid = some e ∧
      updateEventFields e req now = Except.ok e2 ∧
      db2 = { db with
                events := db.events.map (fun x => if x.id == eid then e2 else x) } := by
  unfold update_event at h
  repeat' split at h
  all_goals simp_all

theorem sell_ticket_err {db : DB} {eid : Nat} {now : DateTime}
    {err : Err} {db2 : DB}
    (h : sell_ticket db eid now = (Except.error err, db2)) : db2 = db := by
  unfold sell_ticket at h
  repeat' split at h
  all_goals simp_all

theorem sell_ticket_ok {db : DB} {eid : Nat} {now : DateTime}
    {r : Nat} {db2 : DB}
    (h : sell_ticket db eid now = (Except.ok r, db2)) :
    ∃ ev, findEvent db eid = some ev ∧
      ev.tickets_sold < ev.total_tickets ∧ r = eid ∧
      db2 = { db with
                events := db.events.map (fun x =>
                  if x.id == eid then
                    { ev with tickets_sold := ev.tickets_sold + 1 }
                  else x),
                tickets := db.tickets ++ [⟨db.next_ticket_id, eid, false, now⟩],
                next_ticket_id := db.next_ticket_id + 1 } := by
  unfold sell_ticket at h
  repeat' split at h
  all_goals simp_all
  all_goals obtain ⟨h1, h2⟩ := h
  all_goals subst h1
  all_goals exact h2.symm

theorem sell_ticket_of_lt {db : DB} {eid : Nat} {ev : Event} (now : DateTime)
    (h : findEvent db eid = some ev)
    (hlt : ev.tickets_sold < ev.total_tickets) :
    sell_ticket db eid now =
      (Except.ok eid,
        { db with
            events := db.events.map (fun x =>
              if x.id == eid then
                { ev with tickets_sold := ev.tickets_sold + 1 }
              else x),
            tickets := db.tickets ++ [⟨db.next_ticket_id, eid, false, now⟩],
            next_ticket_id := db.next_ticket_id + 1 }) := by
  unfold sell_ticket
  rw [h]
  dsimp only
  have hc : ¬(ev.tickets_sold ≥ ev.total_tickets) := by omega
  rw [if_neg hc]

theorem sell_ticket_of_ge {db : DB} {eid : Nat} {ev : Event} (now : DateTime)
    (h : findEvent db eid = some ev)
    (hge : ev.total_tickets ≤ ev.tickets_sold) :
    sell_ticket db eid now = (Except.error Err.capacityExceeded, db) := by
  unfold sell_ticket
  rw [h]
  dsimp only
  have hc : ev.tickets_sold ≥ ev.total_tickets := by omega
  rw [if_pos hc]

theorem delete_event_err {db : DB} {eid : Nat} {now : DateTime}
    {err : Err} {db2 : DB}
    (h : delete_event db eid now = (Except.error err, db2)) : db2 = db := by
  unfold delete_event at h
  repeat' split at h
  all_goals simp_all

theorem delete_event_ok {db : DB} {eid : Nat} {now : DateTime} {db2 : DB}
    (h : delete_event db eid now = (Except.ok (), db2)) :
    db2 = { db with
              events := db.events.filter (fun x => ¬(x.id == eid)),
              tickets := db.tickets.filter (fun t => ¬(t.event_id == eid)) } := by
  unfold delete_event at h
  repeat' split at h
  all_goals simp_all

theorem redeem_ticket_err {db : DB} {tid : Nat} {now : DateTime}
    {err : Err} {db2 : DB}
    (h : redeem_ticket db tid now = (Except.error err, db2)) : db2 = db := by
  unfold redeem_ticket at h
  repeat' split at h
  all_goals simp_all

theorem redeem_ticket_ok {db : DB} {tid : Nat} {now : DateTime} {db2 : DB}
    (h : redeem_ticket db tid now = (Except.ok (), db2)) :
    ∃ t ev, findTicket db tid = some t ∧ findEvent db t.event_id = some ev ∧
      t.redeemed = false ∧
      ev.start_date.date ≤ now.date ∧ now.date ≤ ev.end_date.date ∧
      db2 = { db with
                tickets := db.tickets.map (fun x =>
                  if x.id == tid then { x with redeemed := true } else x) } := by
  unfold redeem_ticket at h
  repeat' split at h
  all_goals simp_all

end TicketsService
namespace TicketsService

theorem invSold_create {db : DB} {req : EventReq} {now : DateTime}
    (hinv : InvSold db) : InvSold (create_event db req now).2 := by
  cases hc : create_event db req now with
  | mk r db2 =>
    cases r with
    | error err =>
      have h2 := create_event_err hc
      simpa [h2] using hinv
    | ok eid =>
      obtain ⟨sd, ed, tt, _, _, _, _, _, h1, h300, _, hdb2⟩ := create_event_ok hc
      intro e he
      rw [hdb2] at he
      simp only [List.mem_append, List.mem_singleton] at he
      rcases he with he | he
      · exact hinv e he
      · rw [he]
        simpa using le_trans (by norm_num) h1

theorem invSold_update {db : DB} {eid : Nat} {req : EventReq} {now : DateTime}
    (hinv : InvSold db) : InvSold (update_event db eid req now).2 := by
  cases hc : update_event db eid req now with
  | mk r db2 =>
    cases r with
    | error err =>
      have h2 := update_event_err hc
      simpa [h2] using hinv
    | ok u =>
      cases u
      obtain ⟨e, e2, hfind, hupd, hdb2⟩ := update_event_ok hc
      have hee : e ∈ db.events := findEvent_mem hfind
      have hinv_e := hinv e hee
      obtain ⟨_, hsold, htot⟩ := updateEventFields_ok hupd
      intro x hx
      rw [hdb2] at hx
      simp only [List.mem_map] at hx
      obtain ⟨y, hy, hxy⟩ := hx
      by_cases hid : (y.id == eid) = true
      · rw [if_pos hid] at hxy
        subst hxy
        rcases htot with htot | htot
        · rw [hsold, htot]
          exact hinv_e
        · omega
      · rw [if_neg hid] at hxy
        subst hxy
        exact hinv y hy

theorem invSold_delete {db : DB} {eid : Nat} {now : DateTime}
    (hinv : InvSold db) : InvSold (delete_event db eid now).2 := by
  cases hc : delete_event db eid now with
  | mk r db2 =>
    cases r with
    | error err =>
      have h2 := delete_event_err hc
      simpa [h2] using hinv
    | ok u =>
      cases u
      have hdb2 := delete_event_ok hc
      intro x hx
      rw [hdb2] at hx
      exact hinv x (List.mem_of_mem_filter hx)

theorem invSold_sell {db : DB} {eid : Nat} {now : DateTime}
    (hinv : InvSold db) : InvSold (sell_ticket db eid now).2 := by
  cases hc : sell_ticket db eid now with
  | mk r db2 =>
    cases r with
    | error err =>
      have h2 := sell_ticket_err hc
      simpa [h2] using hinv
    | ok v =>
      obtain ⟨ev, hfind, hlt, hv, hdb2⟩ := sell_ticket_ok hc
      intro x hx
      rw [hdb2] at hx
      simp only [List.mem_map] at hx
      obtain ⟨y, hy, hxy⟩ := hx
      by_cases hid : (y.id == eid) = true
      · rw [if_pos hid] at hxy
        subst hxy
        simpa using hlt
      · rw [if_neg hid] at hxy
        subst hxy
        exact hinv y hy

theorem invSold_redeem {db : DB} {tid : Nat} {now : DateTime}
    (hinv : InvSold db) : InvSold (redeem_ticket db tid now).2 := by
  cases hc : redeem_ticket db tid now with
  | mk r db2 =>
    cases r with
    | error err =>
      have h2 := redeem_ticket_err hc
      simpa [h2] using hinv
    | ok u =>
      cases u
      obtain ⟨t, ev, _, _, _, _, _, hdb2⟩ := redeem_ticket_ok hc
      intro x hx
      rw [hdb2] at hx
      exact hinv x hx

theorem invSold_step {db db2 : DB} (hs : Step db db2) (hinv : InvSold db) :
    InvSold db2 := by
  cases hs with
  | create req now => exact invSold_create hinv
  | update eid req now => exact invSold_update hinv
  | delete eid now => exact invSold_delete hinv
  | sell eid now => exact invSold_sell hinv
  | redeem tid now => exact invSold_redeem hinv

end TicketsService
namespace TicketsService

theorem ticketIdsOk_create {db : DB} {req : EventReq} {now : DateTime}
    (hok : TicketIdsOk db) : TicketIdsOk (create_event db req now).2 := by
  cases hc : create_event db req now with
  | mk r db2 =>
    cases r with
    | error err => have h2 := create_event_err hc; simpa [h2] using hok
    | ok eid =>
      obtain ⟨sd, ed, tt, _, _, _, _, _, _, _, _, hdb2⟩ := create_event_ok hc
      rw [hdb2]
      exact hok

theorem ticketIdsOk_update {db : DB} {eid : Nat} {req : EventReq}
    {now : DateTime} (hok : TicketIdsOk db) :
    TicketIdsOk (update_event db eid req now).2 := by
  cases hc : update_event db eid req now with
  | mk r db2 =>
    cases r with
    | error err => have h2 := update_event_err hc; simpa [h2] using hok
    | ok u =>
      cases u
      obtain ⟨e, e2, _, _, hdb2⟩ := update_event_ok hc
      rw [hdb2]
      exact hok

theorem ticketIdsOk_delete {db : DB} {eid : Nat} {now : DateTime}
    (hok : TicketIdsOk db) : TicketIdsOk (delete_event db eid now).2 := by
  cases hc : delete_event db eid now with
  | mk r db2 =>
    cases r with
    | error err => have h2 := delete_event_err hc; simpa [h2] using hok
    | ok u =>
      cases u
      have hdb2 := delete_event_ok hc
      rw [hdb2]
      constructor
      · intro t ht
        exact hok.1 t (List.mem_of_mem_filter ht)
      · exact hok.2.sublist ((List.filter_sublist db.tickets).map Ticket.id)

theorem ticketIdsOk_sell {db : DB} {eid : Nat} {now : DateTime}
    (hok : TicketIdsOk db) : TicketIdsOk (sell_ticket db eid now).2 := by
  cases hc : sell_ticket db eid now with
  | mk r db2 =>
    cases r with
    | error err => have h2 := sell_ticket_err hc; simpa [h2] using hok
    | ok v =>
      obtain ⟨ev, _, _, _, hdb2⟩ := sell_ticket_ok hc
      rw [hdb2]
      constructor
      · intro t ht
        simp only [List.mem_append, List.mem_singleton] at ht
        rcases ht with ht | ht
        · exact Nat.lt_succ_of_lt (hok.1 t ht)
        · rw [ht]
          exact Nat.lt_succ_self _
      · simp only [List.map_append, List.map_cons, List.map_nil]
        rw [List.nodup_append]
        refine ⟨hok.2, List.nodup_singleton _, ?_⟩
        intro a ha hb
        simp only [List.mem_singleton] at hb
        subst hb
        simp only [List.mem_map] at ha
        obtain ⟨t, ht, hta⟩ := ha
        have := hok.1 t ht
        omega

theorem ticketIdsOk_redeem {db : DB} {tid : Nat} {now : DateTime}
    (hok : TicketIdsOk db) : TicketIdsOk (redeem_ticket db tid now).2 := by
  cases hc : redeem_ticket db tid now with
  | mk r db2 =>
    cases r with
    | error err => have h2 := redeem_ticket_err hc; simpa [h2] using hok
    | ok u =>
      cases u
      obtain ⟨t, ev, _, _, _, _, _, hdb2⟩ := redeem_ticket_ok hc
      rw [hdb2]
      have hmap : (db.tickets.map (fun x =>
          if x.id == tid then { x with redeemed := true } else x)).map Ticket.id
          = db.tickets.map Ticket.id := by
        rw [List.map_map]
        refine List.map_congr_left ?_
        intro a _
        by_cases h : (a.id == tid) = true
        · simp [Function.comp, h]
        · simp [Function.comp, h]
      constructor
      · intro x hx
        simp only [List.mem_map] at hx
        obtain ⟨y, hy, hxy⟩ := hx
        have hylt := hok.1 y hy
        by_cases h : (y.id == tid) = true
        · rw [if_pos h] at hxy
          subst hxy
          simpa using hylt
        · rw [if_neg h] at hxy
          subst hxy
          exact hylt
      · rw [hmap]
        exact hok.2

theorem ticketIdsOk_step {db db2 : DB} (hs : Step db db2)
    (hok : TicketIdsOk db) : TicketIdsOk db2 := by
  cases hs with
  | create req now => exact ticketIdsOk_create hok
  | update eid req now => exact ticketIdsOk_update hok
  | delete eid now => exact ticketIdsOk_delete hok
  | sell eid now => exact ticketIdsOk_sell hok
  | redeem tid now => exact ticketIdsOk_redeem hok

theorem reachable_ticketIdsOk {db : DB} (h : Reachable db) : TicketIdsOk db := by
  induction h with
  | init =>
    constructor
    · intro t ht
      simp [DB.empty] at ht
    · simp [DB.empty]
  | step hr hs ih => exact ticketIdsOk_step hs ih

theorem ticket_id_inj {db : DB} (hok : TicketIdsOk db) {t t2 : Ticket}
    (ht : t ∈ db.tickets) (ht2 : t2 ∈ db.tickets) (hid : t.id = t2.id) :
    t = t2 :=
  List.inj_on_of_nodup_map hok.2 ht ht2 hid

end TicketsService
namespace TicketsService

/-- C2: every operation that fails (in particular with a validation error)
leaves the persisted database unchanged: each failing branch of the five
handlers returns before `db.session.commit()`, so no partial mutation
survives the request. -/
theorem C2_failed_operation_leaves_state_unchanged :
    (∀ db req now err db2,
        create_event db req now = (Except.error err, db2) → db2 = db) ∧
    (∀ db eid req now err db2,
        update_event db eid req now = (Except.error err, db2) → db2 = db) ∧
    (∀ db eid now err db2,
        delete_event db eid now = (Except.error err, db2) → db2 = db) ∧
    (∀ db eid now err db2,
        sell_ticket db eid now = (Except.error err, db2) → db2 = db) ∧
    (∀ db tid now err db2,
        redeem_ticket db tid now = (Except.error err, db2) → db2 = db) :=
  ⟨fun _ _ _ _ _ h => create_event_err h,
   fun _ _ _ _ _ _ h => update_event_err h,
   fun _ _ _ _ _ h => delete_event_err h,
   fun _ _ _ _ _ h => sell_ticket_err h,
   fun _ _ _ _ _ h => redeem_ticket_err h⟩

/-- Witness for C2: an UpdateEvent whose end_date fails validation against
the just-updated start_date (after the name and start_date session writes)
leaves the stored event with all fields unchanged. -/
theorem C2_witness :
    update_event dbOneEvent 0
        ⟨"New name", DateStr.good 102, DateStr.good 101, some 5⟩ ⟨100, 0⟩
      = (Except.error Err.endBeforeStart, (update_event dbOneEvent 0
          ⟨"New name", DateStr.good 102, DateStr.good 101, some 5⟩
          ⟨100, 0⟩).2) ∧
    (update_event dbOneEvent 0
        ⟨"New name", DateStr.good 102, DateStr.good 101, some 5⟩
        ⟨100, 0⟩).2 = dbOneEvent :=
  ⟨by rfl,
   C2_failed_operation_leaves_state_unchanged.2.1 dbOneEvent 0
     ⟨"New name", DateStr.good 102, DateStr.good 101, some 5⟩ ⟨100, 0⟩
     Err.endBeforeStart _ (by rfl)⟩

/-- C3: a successful SellTicket answers with the id of the event the new
ticket belongs to (src/app.py line 185 returns `ticket.event_id`), not the
ticket's own primary key, which is the fresh `next_ticket_id`. -/
theorem C3_sell_returns_event_identity (db : DB) (eid : Nat) (now : DateTime)
    (r : Nat) (db2 : DB) (h : sell_ticket db eid now = (Except.ok r, db2)) :
    r = eid ∧
      db2.tickets = db.tickets ++ [⟨db.next_ticket_id, eid, false, now⟩] := by
  obtain ⟨ev, _, _, hr, hdb2⟩ := sell_ticket_ok h
  subst hdb2
  exact ⟨hr, rfl⟩

/-- Witness for C3: selling against event 0 in a store whose next ticket
primary key is 7 answers 0 (the event id), while the created ticket gets
id 7. -/
theorem C3_witness :
    (sell_ticket dbNextTicket7 0 ⟨100, 55⟩).1 = Except.ok 0 ∧
    (sell_ticket dbNextTicket7 0 ⟨100, 55⟩).2.tickets =
      [⟨7, 0, false, ⟨100, 55⟩⟩] := by
  have h := C3_sell_returns_event_identity dbNextTicket7 0 ⟨100, 55⟩ 0
    (sell_ticket dbNextTicket7 0 ⟨100, 55⟩).2 (by rfl)
  exact ⟨by rfl, by simpa [dbNextTicket7] using h.2⟩

/-- C10: SellTicket has no date-window check: whenever the event exists and
has remaining capacity, the sale succeeds at every wall-clock time, in
particular after the event's end_date has passed. -/
theorem C10_sell_ignores_date_window (db : DB) (eid : Nat) (ev : Event)
    (hfind : findEvent db eid = some ev)
    (hc : ev.tickets_sold < ev.total_tickets) :
    ∀ now : DateTime, (sell_ticket db eid now).1 = Except.ok eid := by
  intro now
  rw [sell_ticket_of_lt now hfind hc]

/-- Witness for C10: a ticket is sold at day 500 for an event that ended on
day 101, long in the past. -/
theorem C10_witness :
    (sell_ticket dbOneEvent 0 ⟨500, 0⟩).1 = Except.ok 0 :=
  C10_sell_ignores_date_window dbOneEvent 0
    ⟨0, "Concert", ⟨100, 0⟩, ⟨101, 0⟩, 2, 0⟩ (by decide) (by decide) ⟨500, 0⟩

end TicketsService
namespace TicketsService

/-- C1: in every state reachable over the public interface, every event
satisfies tickets_sold ≤ total_tickets; moreover CreateEvent initialises
tickets_sold to 0 with total_tickets ≥ 1, SellTicket refuses once
tickets_sold ≥ total_tickets, and UpdateEvent refuses any new total_tickets
below the current tickets_sold. -/
theorem C1_capacity_invariant :
    (∀ db, Reachable db → ∀ e ∈ db.events,
        e.tickets_sold ≤ e.total_tickets) ∧
    (∀ db req now eid db2, create_event db req now = (Except.ok eid, db2) →
        ∃ ev, db2.events = db.events ++ [ev] ∧ ev.tickets_sold = 0 ∧
          1 ≤ ev.total_tickets) ∧
    (∀ db eid now ev, findEvent db eid = some ev →
        ev.total_tickets ≤ ev.tickets_sold →
        sell_ticket db eid now = (Except.error Err.capacityExceeded, db)) ∧
    (∀ e req now tt, req.total_tickets = some tt → tt < e.tickets_sold →
        ∀ e2, updateEventFields e req now ≠ Except.ok e2) := by
  refine ⟨?_, ?_, ?_, ?_⟩
  · intro db h
    induction h with
    | init => intro e he; simp [DB.empty] at he
    | step hr hs ih => exact invSold_step hs ih
  · intro db req now eid db2 h
    obtain ⟨sd, ed, tt, _, _, _, _, _, h1, _, _, hdb2⟩ := create_event_ok h
    exact ⟨_, by rw [hdb2], rfl, h1⟩
  · intro db eid now ev hfind hge
    exact sell_ticket_of_ge now hfind hge
  · intro e req now tt htt hlt e2 hok
    unfold updateEventFields at hok
    split at hok
    · simp at hok
    · cases hs : applyStart (applyName e req) req now with
      | error err => rw [hs] at hok; simp at hok
      | ok ea =>
        rw [hs] at hok
        dsimp only at hok
        cases he : applyEnd ea req with
        | error err => rw [he] at hok; simp at hok
        | ok eb =>
          rw [he] at hok
          dsimp only at hok
          obtain ⟨_, _, _, _, hn5⟩ := applyName_fields e req
          obtain ⟨_, _, _, _, hs5⟩ := applyStart_ok hs
          obtain ⟨_, _, _, _, he5⟩ := applyEnd_ok he
          unfold applyTotal at hok
          rw [htt] at hok
          dsimp only at hok
          rw [if_pos (by omega)] at hok
          simp at hok

/-- Witness for C1: the invariant evaluated at the concrete state reached by
one CreateEvent followed by one SellTicket. -/
theorem C1_witness :
    ∀ e ∈ (sell_ticket (create_event DB.empty
        ⟨"Concert", DateStr.good 100, DateStr.good 101, some 2⟩
        ⟨100, 0⟩).2 0 ⟨100, 0⟩).2.events,
      e.tickets_sold ≤ e.total_tickets :=
  C1_capacity_invariant.1 _
    (Reachable.step (Reachable.step Reachable.init (Step.create _ _ _))
      (Step.sell _ _ _))

end TicketsService
namespace TicketsService

/-- C6: for an existing, unredeemed ticket of an existing event, RedeemTicket
succeeds exactly when the current calendar date lies in
[event.start_date, event.end_date] inclusive (date-only comparison), and
otherwise fails with the out-of-window error leaving the state unchanged. -/
theorem C6_redeem_window (db : DB) (tid : Nat) (now : DateTime)
    (t : Ticket) (ev : Event)
    (hft : findTicket db tid = some t) (hr : t.redeemed = false)
    (hfe : findEvent db t.event_id = some ev) :
    ((∃ db2, redeem_ticket db tid now = (Except.ok (), db2)) ↔
      (ev.start_date.date ≤ now.date ∧ now.date ≤ ev.end_date.date)) ∧
    (¬(ev.start_date.date ≤ now.date ∧ now.date ≤ ev.end_date.date) →
      redeem_ticket db tid now = (Except.error Err.outOfWindow, db)) := by
  unfold redeem_ticket
  rw [hft]
  dsimp only
  rw [hfe]
  dsimp only
  rw [if_neg (by simp [hr])]
  by_cases hw : ev.start_date.date ≤ now.date ∧ now.date ≤ ev.end_date.date
  · rw [if_neg (not_not_intro hw)]
    refine ⟨⟨fun _ => hw, fun _ => ⟨_, rfl⟩⟩, fun hcon => absurd hw hcon⟩
  · rw [if_pos hw]
    refine ⟨⟨fun hex => ?_, fun hcon => absurd hcon hw⟩, fun _ => rfl⟩
    obtain ⟨db2, hdb2⟩ := hex
    exact absurd hdb2 (by simp)

/-- Witness for C6: redeeming the unredeemed ticket on the event's end_date
day (day 101, boundary included) succeeds. -/
theorem C6_witness :
    ∃ db2, redeem_ticket dbUnredeemed 0 ⟨101, 999⟩ = (Except.ok (), db2) :=
  (C6_redeem_window dbUnredeemed 0 ⟨101, 999⟩ ⟨0, 0, false, ⟨100, 9⟩⟩
      ⟨0, "Concert", ⟨100, 0⟩, ⟨101, 0⟩, 2, 1⟩
      (by decide) (by decide) (by decide)).1.mpr (by decide)

/-- C8: for an existing event, DeleteEvent fails (with the cannot-delete
validation error) exactly when tickets_sold > 0 and the event's end_date is
still in the future relative to now; on success the event row and every
ticket referencing it are removed. -/
theorem C8_delete_rule (db : DB) (eid : Nat) (now : DateTime) (ev : Event)
    (h : findEvent db eid = some ev) :
    ((delete_event db eid now).1 = Except.error Err.cannotDelete ↔
      (0 < ev.tickets_sold ∧ dtLt now ev.end_date = true)) ∧
    (∀ db2, delete_event db eid now = (Except.ok (), db2) →
      (∀ e ∈ db2.events, e.id ≠ eid) ∧ (∀ t ∈ db2.tickets, t.event_id ≠ eid)) := by
  unfold delete_event
  rw [h]
  dsimp only
  by_cases hc : ev.tickets_sold > 0 ∧ dtLt now ev.end_date = true
  · rw [if_pos hc]
    refine ⟨⟨fun _ => hc, fun _ => rfl⟩, fun db2 h2 => absurd h2 (by simp)⟩
  · rw [if_neg hc]
    constructor
    · exact ⟨fun hcon => absurd hcon (by simp), fun hcon => absurd hcon hc⟩
    · intro db2 h2
      have hdb2 : db2 = { db with
          events := db.events.filter (fun x => ¬(x.id == eid)),
          tickets := db.tickets.filter (fun t => ¬(t.event_id == eid)) } := by
        have := congrArg Prod.snd h2
        simpa using this.symm
      subst hdb2
      constructor
      · intro e he
        have := List.of_mem_filter he
        simpa using this
      · intro t ht
        have := List.of_mem_filter ht
        simpa using this

/-- Witness for C8: the event of `dbUnredeemed` has one sold ticket and, at
a time after its end_date, deletion succeeds and removes its ticket; the
failure equivalence is checked at a time before the end_date. -/
theorem C8_witness :
    ((delete_event dbUnredeemed 0 ⟨100, 5⟩).1 =
        Except.error Err.cannotDelete ↔
      (0 < (1 : Int) ∧ dtLt ⟨100, 5⟩ ⟨101, 0⟩ = true)) ∧
    (∀ db2, delete_event dbUnredeemed 0 ⟨100, 5⟩ = (Except.ok (), db2) →
      (∀ e ∈ db2.events, e.id ≠ 0) ∧ (∀ t ∈ db2.tickets, t.event_id ≠ 0)) :=
  C8_delete_rule dbUnredeemed 0 ⟨100, 5⟩
    ⟨0, "Concert", ⟨100, 0⟩, ⟨101, 0⟩, 2, 1⟩ (by decide)

end TicketsService
namespace TicketsService

theorem create_event_tickets (db : DB) (req : EventReq) (now : DateTime) :
    (create_event db req now).2.tickets = db.tickets := by
  cases hc : create_event db req now with
  | mk r db2 =>
    cases r with
    | error err => rw [create_event_err hc]
    | ok eid =>
      obtain ⟨_, _, _, _, _, _, _, _, _, _, _, hdb2⟩ := create_event_ok hc
      rw [hdb2]

theorem update_event_tickets (db : DB) (eid : Nat) (req : EventReq)
    (now : DateTime) : (update_event db eid req now).2.tickets = db.tickets := by
  cases hc : update_event db eid req now with
  | mk r db2 =>
    cases r with
    | error err => rw [update_event_err hc]
    | ok u =>
      cases u
      obtain ⟨_, _, _, _, hdb2⟩ := update_event_ok hc
      rw [hdb2]

theorem delete_event_tickets (db : DB) (eid : Nat) (now : DateTime) :
    (delete_event db eid now).2.tickets = db.tickets ∨
      (delete_event db eid now).2.tickets =
        db.tickets.filter (fun t => ¬(t.event_id == eid)) := by
  cases hc : delete_event db eid now with
  | mk r db2 =>
    cases r with
    | error err => rw [delete_event_err hc]; exact Or.inl rfl
    | ok u =>
      cases u
      rw [delete_event_ok hc]
      exact Or.inr rfl

theorem sell_ticket_tickets (db : DB) (eid : Nat) (now : DateTime) :
    (sell_ticket db eid now).2.tickets = db.tickets ∨
      (sell_ticket db eid now).2.tickets =
        db.tickets ++ [⟨db.next_ticket_id, eid, false, now⟩] := by
  cases hc : sell_ticket db eid now with
  | mk r db2 =>
    cases r with
    | error err => rw [sell_ticket_err hc]; exact Or.inl rfl
    | ok v =>
      obtain ⟨_, _, _, _, hdb2⟩ := sell_ticket_ok hc
      rw [hdb2]
      exact Or.inr rfl

theorem redeem_ticket_tickets (db : DB) (tid : Nat) (now : DateTime) :
    (redeem_ticket db tid now).2.tickets = db.tickets ∨
      (redeem_ticket db tid now).2.tickets =
        db.tickets.map (fun x =>
          if x.id == tid then { x with redeemed := true } else x) := by
  cases hc : redeem_ticket db tid now with
  | mk r db2 =>
    cases r with
    | error err => rw [redeem_ticket_err hc]; exact Or.inl rfl
    | ok u =>
      cases u
      obtain ⟨_, _, _, _, _, _, _, hdb2⟩ := redeem_ticket_ok hc
      rw [hdb2]
      exact Or.inr rfl

theorem redeemed_persists_step {db db2 : DB} (hok : TicketIdsOk db)
    (hs : Step db db2) {t : Ticket} (ht : t ∈ db.tickets)
    (hred : t.redeemed = true) :
    ∀ t2 ∈ db2.tickets, t2.id = t.id → t2.redeemed = true := by
  have hsame : ∀ t2 ∈ db.tickets, t2.id = t.id → t2.redeemed = true := by
    intro t2 ht2 hid
    have : t2 = t := ticket_id_inj hok ht2 ht hid
    rw [this]
    exact hred
  intro t2 ht2 hid
  cases hs with
  | create req now =>
    rw [create_event_tickets] at ht2
    exact hsame t2 ht2 hid
  | update eid req now =>
    rw [update_event_tickets] at ht2
    exact hsame t2 ht2 hid
  | delete eid now =>
    rcases delete_event_tickets db eid now with hd | hd
    · rw [hd] at ht2
      exact hsame t2 ht2 hid
    · rw [hd] at ht2
      exact hsame t2 (List.mem_of_mem_filter ht2) hid
  | sell eid now =>
    rcases sell_ticket_tickets db eid now with hd | hd
    · rw [hd] at ht2
      exact hsame t2 ht2 hid
    · rw [hd] at ht2
      simp only [List.mem_append, List.mem_singleton] at ht2
      rcases ht2 with ht2 | ht2
      · exact hsame t2 ht2 hid
      · exfalso
        have hlt := hok.1 t ht
        rw [ht2] at hid
        simp only at hid
        omega
  | redeem tid now =>
    rcases redeem_ticket_tickets db tid now with hd | hd
    · rw [hd] at ht2
      exact hsame t2 ht2 hid
    · rw [hd] at ht2
      simp only [List.mem_map] at ht2
      obtain ⟨y, hy, hyt2⟩ := ht2
      by_cases hc : (y.id == tid) = true
      · rw [if_pos hc] at hyt2
        rw [← hyt2]
      · rw [if_neg hc] at hyt2
        subst hyt2
        exact hsame y hy hid

/-- C7: redemption is one-way and not idempotent: over any request on a
reachable state a ticket whose redeemed flag is true keeps it true, and a
second RedeemTicket on an already redeemed ticket fails with the
already-redeemed error leaving the state (and hence the flag) unchanged. -/
theorem C7_redeem_one_way_not_idempotent :
    (∀ db db2, Reachable db → Step db db2 →
      ∀ t ∈ db.tickets, t.redeemed = true →
        ∀ t2 ∈ db2.tickets, t2.id = t.id → t2.redeemed = true) ∧
    (∀ db tid now t ev, findTicket db tid = some t →
      findEvent db t.event_id = some ev → t.redeemed = true →
      redeem_ticket db tid now = (Except.error Err.alreadyRedeemed, db)) := by
  constructor
  · intro db db2 hre hs t ht hred
    exact redeemed_persists_step (reachable_ticketIdsOk hre) hs ht hred
  · intro db tid now t ev hft hfe hred
    unfold redeem_ticket
    rw [hft]
    dsimp only
    rw [hfe]
    dsimp only
    rw [if_pos hred]

/-- Witness for C7: redeeming the already redeemed ticket of `dbRedeemed`
fails with the already-redeemed error and leaves the database unchanged. -/
theorem C7_witness :
    redeem_ticket dbRedeemed 0 ⟨100, 50⟩ =
      (Except.error Err.alreadyRedeemed, dbRedeemed) :=
  C7_redeem_one_way_not_idempotent.2 dbRedeemed 0 ⟨100, 50⟩
    ⟨0, 0, true, ⟨100, 9⟩⟩ ⟨0, "Concert", ⟨100, 0⟩, ⟨101, 0⟩, 2, 1⟩
    (by decide) (by decide) (by decide)

end TicketsService
namespace TicketsService

/-- C9: a successful CreateEvent appends exactly one event with
tickets_sold = 0, total_tickets in [1, 300], end_date not before start_date
and start_date not before today; any failing create leaves the database
unchanged; and a total_tickets of 0 (or JSON null) is caught by the
falsy-value required-field gate. -/
theorem C9_create_validation (db : DB) (req : EventReq) (now : DateTime) :
    (∀ eid db2, create_event db req now = (Except.ok eid, db2) →
      ∃ ev, db2.events = db.events ++ [ev] ∧ db2.tickets = db.tickets ∧
        ev.id = eid ∧ ev.tickets_sold = 0 ∧ 1 ≤ ev.total_tickets ∧
        ev.total_tickets ≤ 300 ∧ ev.start_date.date ≤ ev.end_date.date ∧
        now.date ≤ ev.start_date.date) ∧
    (∀ err db2, create_event db req now = (Except.error err, db2) →
      db2 = db) ∧
    ((req.total_tickets = none ∨ req.total_tickets = some 0) →
      (create_event db req now).1 = Except.error Err.missingFields) := by
  refine ⟨?_, ?_, ?_⟩
  · intro eid db2 h
    obtain ⟨sd, ed, tt, hps, hpe, htt, hsp, hes, h1, h300, heid, hdb2⟩ :=
      create_event_ok h
    refine ⟨⟨db.next_event_id, req.name, sd, ed, tt, 0⟩,
      by rw [hdb2], by rw [hdb2], ?_, rfl, h1, h300, ?_, ?_⟩
    · simpa using heid.symm
    · simpa using le_of_not_lt hes
    · simpa using le_of_not_lt hsp
  · intro err db2 h
    exact create_event_err h
  · intro h
    have hf : falsyTT req.total_tickets = true := by
      rcases h with h | h <;> rw [h] <;> rfl
    unfold create_event
    rw [if_pos (by rw [hf]; simp)]

/-- Witness for C9: a valid create on the empty database yields an event
with the stated bounds, and a create with total_tickets = 0 is rejected as
a missing field. -/
theorem C9_witness :
    (∃ ev, (create_event DB.empty
        ⟨"Concert", DateStr.good 100, DateStr.good 101, some 2⟩
        ⟨100, 0⟩).2.events = DB.empty.events ++ [ev] ∧
      (create_event DB.empty
        ⟨"Concert", DateStr.good 100, DateStr.good 101, some 2⟩
        ⟨100, 0⟩).2.tickets = DB.empty.tickets ∧
      ev.id = 0 ∧ ev.tickets_sold = 0 ∧ 1 ≤ ev.total_tickets ∧
      ev.total_tickets ≤ 300 ∧ ev.start_date.date ≤ ev.end_date.date ∧
      (⟨100, 0⟩ : DateTime).date ≤ ev.start_date.date) ∧
    (create_event DB.empty
        ⟨"Concert", DateStr.good 100, DateStr.good 101, some 0⟩
        ⟨100, 0⟩).1 = Except.error Err.missingFields := by
  constructor
  · exact (C9_create_validation DB.empty
      ⟨"Concert", DateStr.good 100, DateStr.good 101, some 2⟩ ⟨100, 0⟩).1 0
      (create_event DB.empty
        ⟨"Concert", DateStr.good 100, DateStr.good 101, some 2⟩ ⟨100, 0⟩).2
      (by rfl)
  · exact (C9_create_validation DB.empty
      ⟨"Concert", DateStr.good 100, DateStr.good 101, some 0⟩ ⟨100, 0⟩).2.2
      (Or.inr rfl)

theorem applyStart_good {e : Event} {req : EventReq} {now : DateTime}
    {d1 : Int} (h : req.start_date = DateStr.good d1) :
    applyStart e req now =
      if d1 < now.date then Except.error Err.startInPast
      else Except.ok { e with start_date := ⟨d1, 0⟩ } := by
  unfold applyStart
  rw [h]
  simp [falsyDate, parseDate]

theorem applyEnd_good {e : Event} {req : EventReq} {d2 : Int}
    (h : req.end_date = DateStr.good d2) :
    applyEnd e req =
      if d2 < e.start_date.date then Except.error Err.endBeforeStart
      else Except.ok { e with end_date := ⟨d2, 0⟩ } := by
  unfold applyEnd
  rw [h]
  simp [falsyDate, parseDate]

end TicketsService
namespace TicketsService

/-- C5: when an UpdateEvent request carries parsing start and end dates, the
end_date is validated against the start_date already installed earlier in
the same call — a successful call forces new end ≥ new start and stores
both — and the outcome is entirely independent of the event's pre-call
start_date. -/
theorem C5_end_date_checked_against_new_start :
    (∀ e req now d1 d2 e2, req.start_date = DateStr.good d1 →
      req.end_date = DateStr.good d2 →
      updateEventFields e req now = Except.ok e2 →
      d1 ≤ d2 ∧ e2.start_date = ⟨d1, 0⟩ ∧ e2.end_date = ⟨d2, 0⟩) ∧
    (∀ e req now d1 s, req.start_date = DateStr.good d1 →
      updateEventFields { e with start_date := s } req now =
        updateEventFields e req now) := by
  constructor
  · intro e req now d1 d2 e2 h1 h2 hok
    unfold updateEventFields at hok
    split at hok
    · simp at hok
    · rw [applyStart_good h1] at hok
      by_cases hp : d1 < now.date
      · rw [if_pos hp] at hok
        simp at hok
      · rw [if_neg hp] at hok
        dsimp only at hok
        rw [applyEnd_good h2] at hok
        by_cases hq : d2 < d1
        · rw [if_pos (by simpa using hq)] at hok
          simp at hok
        · rw [if_neg (by simpa using hq)] at hok
          dsimp only at hok
          obtain ⟨_, _, ht3, ht4, _, _⟩ := applyTotal_ok hok
          refine ⟨by omega, ?_, ?_⟩
          · rw [ht3]
          · rw [ht4]
  · intro e req now d1 s h1
    unfold updateEventFields
    have hn : applyName { e with start_date := s } req =
        { applyName e req with start_date := s } := by
      unfold applyName
      split <;> rfl
    rw [hn]
    have hs2 : applyStart { applyName e req with start_date := s } req now =
        applyStart (applyName e req) req now := by
      rw [applyStart_good h1, applyStart_good h1]
    rw [hs2]

/-- Witness for C5: with today = day 90 and a stored event whose start_date
is day 100, an update to start 90 / end 95 succeeds — end 95 would be
before the pre-call start 100, but it is checked against the new start 90 —
and shifting the stored start_date does not change the outcome. -/
theorem C5_witness :
    ((90 : Int) ≤ 95 ∧
      (⟨0, "New", ⟨90, 0⟩, ⟨95, 0⟩, 2, 0⟩ : Event).start_date = ⟨90, 0⟩ ∧
      (⟨0, "New", ⟨90, 0⟩, ⟨95, 0⟩, 2, 0⟩ : Event).end_date = ⟨95, 0⟩) ∧
    updateEventFields
        { (⟨0, "Concert", ⟨100, 0⟩, ⟨101, 0⟩, 2, 0⟩ : Event) with
            start_date := ⟨55, 5⟩ }
        ⟨"New", DateStr.good 90, DateStr.good 95, some 2⟩ ⟨90, 0⟩ =
      updateEventFields (⟨0, "Concert", ⟨100, 0⟩, ⟨101, 0⟩, 2, 0⟩ : Event)
        ⟨"New", DateStr.good 90, DateStr.good 95, some 2⟩ ⟨90, 0⟩ :=
  ⟨C5_end_date_checked_against_new_start.1
      ⟨0, "Concert", ⟨100, 0⟩, ⟨101, 0⟩, 2, 0⟩
      ⟨"New", DateStr.good 90, DateStr.good 95, some 2⟩ ⟨90, 0⟩ 90 95
      ⟨0, "New", ⟨90, 0⟩, ⟨95, 0⟩, 2, 0⟩ rfl rfl (by rfl),
   C5_end_date_checked_against_new_start.2
      ⟨0, "Concert", ⟨100, 0⟩, ⟨101, 0⟩, 2, 0⟩
      ⟨"New", DateStr.good 90, DateStr.good 95, some 2⟩ ⟨90, 0⟩ 90 ⟨55, 5⟩ rfl⟩

end TicketsService
namespace TicketsService

theorem sellN_find {db : DB} {eid : Nat} {now : DateTime} {ev : Event}
    (hfind : findEvent db eid = some ev) :
    ∀ k : Nat, (k : Int) ≤ ev.total_tickets - ev.tickets_sold →
      ∃ evk, findEvent (sellN db eid now k) eid = some evk ∧
        evk.id = eid ∧
        evk.tickets_sold = ev.tickets_sold + (k : Int) ∧
        evk.total_tickets = ev.total_tickets := by
  intro k
  induction k with
  | zero =>
    intro _
    exact ⟨ev, hfind, findEvent_id hfind, by simp, rfl⟩
  | succ k ih =>
    intro hk
    obtain ⟨evk, hfk, hik, hsk, htk⟩ := ih (by push_cast at hk ⊢; omega)
    have hlt : evk.tickets_sold < evk.total_tickets := by
      push_cast at hk
      omega
    have hstep := sell_ticket_of_lt now hfk hlt
    have heq : sellN db eid now (k + 1) =
        (sell_ticket (sellN db eid now k) eid now).2 := rfl
    rw [heq, hstep]
    refine ⟨{ evk with tickets_sold := evk.tickets_sold + 1 }, ?_, ?_, ?_, ?_⟩
    · exact find?_map_replace hfk (by simpa using hik)
    · simpa using hik
    · push_cast
      show evk.tickets_sold + 1 = ev.tickets_sold + ((k : Int) + 1)
      omega
    · simpa using htk

/-- C4: an event created with capacity N sells exactly N tickets: each of
the first N sells succeeds, appending one unredeemed ticket linked to the
event and incrementing tickets_sold by one, the (N+1)-th sell fails with the
capacity error leaving the state unchanged, and in general (for an existing
event) SellTicket fails with the capacity error exactly when
tickets_sold ≥ total_tickets. -/
theorem C4_capacity_exhaustion (db : DB) (eid : Nat) (now : DateTime)
    (ev : Event) (N : Nat) (hfind : findEvent db eid = some ev)
    (h0 : ev.tickets_sold = 0) (hN : ev.total_tickets = (N : Int)) :
    (∀ k, k < N →
      ∃ evk, findEvent (sellN db eid now k) eid = some evk ∧
        evk.tickets_sold = (k : Int) ∧
        sell_ticket (sellN db eid now k) eid now =
          (Except.ok eid,
            { sellN db eid now k with
                events := (sellN db eid now k).events.map (fun x =>
                  if x.id == eid then
                    { evk with tickets_sold := evk.tickets_sold + 1 }
                  else x),
                tickets := (sellN db eid now k).tickets ++
                  [⟨(sellN db eid now k).next_ticket_id, eid, false, now⟩],
                next_ticket_id := (sellN db eid now k).next_ticket_id + 1 })) ∧
    (sell_ticket (sellN db eid now N) eid now =
      (Except.error Err.capacityExceeded, sellN db eid now N)) ∧
    (∀ db2 ev2, findEvent db2 eid = some ev2 →
      ((sell_ticket db2 eid now).1 = Except.error Err.capacityExceeded ↔
        ev2.total_tickets ≤ ev2.tickets_sold)) := by
  refine ⟨?_, ?_, ?_⟩
  · intro k hkN
    obtain ⟨evk, hfk, hik, hsk, htk⟩ := sellN_find hfind k
      (by rw [h0, hN]; omega)
    have hlt : evk.tickets_sold < evk.total_tickets := by
      rw [hsk, htk, h0, hN]
      omega
    exact ⟨evk, hfk, by omega, sell_ticket_of_lt now hfk hlt⟩
  · obtain ⟨evN, hfN, hiN, hsN, htN⟩ := sellN_find hfind N
      (by rw [h0, hN]; simp)
    have hge : evN.total_tickets ≤ evN.tickets_sold := by
      rw [hsN, htN, h0, hN]
      simp
    exact sell_ticket_of_ge now hfN hge
  · intro db2 ev2 hf2
    by_cases hc : ev2.total_tickets ≤ ev2.tickets_sold
    · rw [sell_ticket_of_ge now hf2 hc]
      simp [hc]
    · rw [sell_ticket_of_lt now hf2 (by omega)]
      simp [hc]

/-- Witness for C4: on the concrete two-capacity event, after two sells the
third attempt fails with the capacity error and changes nothing. -/
theorem C4_witness :
    sell_ticket (sellN dbOneEvent 0 ⟨100, 1⟩ 2) 0 ⟨100, 1⟩ =
      (Except.error Err.capacityExceeded, sellN dbOneEvent 0 ⟨100, 1⟩ 2) :=
  (C4_capacity_exhaustion dbOneEvent 0 ⟨100, 1⟩
    ⟨0, "Concert", ⟨100, 0⟩, ⟨101, 0⟩, 2, 0⟩ 2
    (by decide) (by decide) (by decide)).2.1

end TicketsService
